import Mathlib

/-!
Shallow embedding of the HTTP header store (src/http_headers.c) and the
HTTP/1.x request validator (src/request.c).

Byte strings (gchar* / GString) are modelled as `List Char`; a GQueue of
entries is a `List`; a GList cursor is the pair of the index of a node and
the entry stored there.  The glib reference counter is a `Nat`.  External
collaborators (URL parser, hostname parser, numeric conversion) that live
outside the two embedded files are passed in as an explicit record of
functions.
-/

set_option autoImplicit false

namespace LightySpec

/-- g_ascii_tolower: lower-case one ASCII character, leaving all other
bytes unchanged. -/
def asciiLower (c : Char) : Char :=
  if 'A' ≤ c && c ≤ 'Z' then Char.ofNat (c.toNat + 32) else c

/-- Equality of two byte strings after ASCII lower-casing each byte;
this is g_ascii_strcasecmp returning 0 on NUL-free strings of equal
length. -/
def asciiLowerEq (a b : List Char) : Bool :=
  a.map asciiLower == b.map asciiLower

/-- One stored header (struct http_header): the length of the key and a
single buffer holding "key: value". -/
structure http_header where
  keylen : Nat
  data : List Char
deriving Repr, DecidableEq, Inhabited

/-- The header collection (struct http_headers): reference count plus the
queue of entries, head first. -/
structure http_headers where
  refcount : Nat
  entries : List http_header
deriving Repr, DecidableEq

/-- The name part of an entry: the first keylen bytes of the buffer. -/
def hdrName (h : http_header) : List Char :=
  h.data.take h.keylen

/-- HEADER_VALUE: the bytes of the buffer after "key: ". -/
def hdrValue (h : http_header) : List Char :=
  h.data.drop (h.keylen + 2)

/-- _http_header_new: build the combined "key: value" buffer and record
the key length. -/
def _http_header_new (key val : List Char) : http_header :=
  { keylen := key.length, data := key ++ (": ".data) ++ val }

/-- The match test used by all three find functions:
`h->keylen == keylen && 0 == g_ascii_strncasecmp(key, h->data->str, keylen)`. -/
def headerMatch (h : http_header) (key : List Char) : Bool :=
  h.keylen == key.length && asciiLowerEq (h.data.take key.length) key

/-- The specification-level match criterion: the search name has the same
byte length as the entry name and the two are equal under ASCII
case-insensitive comparison. -/
def nameMatches (h : http_header) (key : List Char) : Bool :=
  (hdrName h).length == key.length && asciiLowerEq (hdrName h) key

/-- http_headers_new: fresh empty collection with refcount 1. -/
def http_headers_new : http_headers :=
  { refcount := 1, entries := [] }

/-- http_headers_try_reset.  The source decrements the counter; if it
reached zero (the caller was the sole owner) it clears the entries in
place, resets the counter to 1 and returns the same object, otherwise it
returns a brand-new empty collection.  Pointer identity is made explicit:
the result is (returned collection, state of the original object after
the call, whether the returned object is the original one). -/
def http_headers_try_reset (hs : http_headers) : http_headers × http_headers × Bool :=
  if hs.refcount - 1 == 0 then
    let hs := { hs with entries := [], refcount := 1 }
    (hs, hs, true)
  else
    (http_headers_new, { hs with refcount := hs.refcount - 1 }, false)

/-- http_header_insert: push a new entry at the tail, duplicates
allowed. -/
def http_header_insert (hs : http_headers) (key val : List Char) : http_headers :=
  { hs with entries := hs.entries ++ [_http_header_new key val] }

/-- Forward scan for the first entry matching the key, returning the
index of the GList node together with the entry stored there; n is the
index of the first element of the remaining list. -/
def findHdrFrom (key : List Char) : Nat → List http_header → Option (Nat × http_header)
  | _, [] => none
  | n, h :: rest =>
    if headerMatch h key then some (n, h) else findHdrFrom key (n + 1) rest

/-- http_header_find_first: head-to-tail scan. -/
def http_header_find_first (hs : http_headers) (key : List Char) : Option (Nat × http_header) :=
  findHdrFrom key 0 hs.entries

/-- http_header_find_next: continue the scan after node i. -/
def http_header_find_next (hs : http_headers) (i : Nat) (key : List Char) :
    Option (Nat × http_header) :=
  findHdrFrom key (i + 1) (hs.entries.drop (i + 1))

/-- http_header_find_last: tail-to-head scan. -/
def http_header_find_last (hs : http_headers) (key : List Char) : Option (Nat × http_header) :=
  match findHdrFrom key 0 hs.entries.reverse with
  | none => none
  | some (j, h) => some (hs.entries.length - 1 - j, h)

/-- Memory errors of the C source that a functional embedding can only
report, not execute. -/
inductive mem_err where
  /-- A GList node pointer is cast to http_header* instead of the data
  pointer held in the node, and the write then goes through the
  reinterpreted pointer. -/
  | cast_node_as_header
  /-- l->data is evaluated while l is NULL. -/
  | null_deref
deriving Repr, DecidableEq

/-- http_header_append.  When no entry with the key exists the source
inserts a fresh entry.  When one exists, the source executes
`h = (http_header*) l;` (line 116) — casting the found GList node itself,
not `l->data`, to http_header* — and appends ", value" through the
reinterpreted pointer: undefined behavior that never updates the stored
entry, embedded as a memory error. -/
def http_header_append (hs : http_headers) (key val : List Char) :
    Except mem_err http_headers :=
  match http_header_find_last hs key with
  | none => .ok (http_header_insert hs key val)
  | some _ => .error .cast_node_as_header

/-- http_header_overwrite.  Same shape as append: absent key inserts; an
existing key leads to `h = (http_header*) l;` (line 131) and the rebuild
of the buffer goes through the reinterpreted node pointer — undefined
behavior, embedded as a memory error. -/
def http_header_overwrite (hs : http_headers) (key val : List Char) :
    Except mem_err http_headers :=
  match http_header_find_last hs key with
  | none => .ok (http_header_insert hs key val)
  | some _ => .error .cast_node_as_header

/-- The deferred-delete loop of http_header_remove: lp holds the
previously found match while the scan advances; a held match is deleted
(dropped from the output) when the next match is found and once more
after the scan ends, and res records whether any deletion happened. -/
def http_header_remove_scan (key : List Char) :
    Option http_header → List http_header → List http_header × Bool
  | lp, [] => ([], lp.isSome)
  | lp, h :: rest =>
    if headerMatch h key then
      let (tail, r) := http_header_remove_scan key (some h) rest
      (tail, lp.isSome || r)
    else
      let (tail, r) := http_header_remove_scan key lp rest
      (h :: tail, r)

/-- http_header_remove: delete every entry matching the key, reporting
whether any deletion occurred. -/
def http_header_remove (hs : http_headers) (key : List Char) : http_headers × Bool :=
  let (es, r) := http_header_remove_scan key none hs.entries
  ({ hs with entries := es }, r)

/-- http_header_lookup: the entry of the last occurrence, if any. -/
def http_header_lookup (hs : http_headers) (key : List Char) : Option http_header :=
  match http_header_find_last hs key with
  | none => none
  | some (_, h) => some h

/-- http_header_is: does any occurrence of the key have exactly this
value (ASCII case-insensitive, length checked first)? -/
def http_header_is (hs : http_headers) (key val : List Char) : Bool :=
  hs.entries.any fun h =>
    headerMatch h key &&
    (h.data.length - (h.keylen + 2) == val.length) &&
    asciiLowerEq (hdrValue h) val

/-! Request validator (src/request.c). -/

/-- The HTTP method enumeration, restricted to the constructors the
validator distinguishes plus representatives of the default branch. -/
inductive http_method_t where
  | HTTP_METHOD_UNSET
  | HTTP_METHOD_GET
  | HTTP_METHOD_HEAD
  | HTTP_METHOD_POST
  | HTTP_METHOD_OPTIONS
  | HTTP_METHOD_PUT
  | HTTP_METHOD_DELETE
deriving Repr, DecidableEq

/-- The HTTP version enumeration. -/
inductive http_version_t where
  | HTTP_VERSION_UNSET
  | HTTP_VERSION_1_0
  | HTTP_VERSION_1_1
deriving Repr, DecidableEq

/-- The URI fields the validator touches. -/
structure request_uri where
  raw : List Char
  scheme : List Char
  authority : List Char
  path : List Char
  query : List Char
  host : List Char
deriving Repr, DecidableEq

/-- The request fields the validator and the lifecycle functions touch
(parser_ctx and the chunkqueue are out of scope). -/
structure request where
  http_method : http_method_t
  http_method_str : List Char
  http_version : http_version_t
  uri : request_uri
  headers : http_headers
  content_length : Int
deriving Repr, DecidableEq

/-- The connection fields the validator touches. -/
structure connection where
  request : request
  keep_alive : Bool
  response_status : Nat
  expect_100_cont : Bool
deriving Repr, DecidableEq

/-- STR_OFF_T_MAX for a 64-bit off_t. -/
def STR_OFF_T_MAX : Int := 2 ^ 63 - 1

/-- STR_OFF_T_MIN for a 64-bit off_t. -/
def STR_OFF_T_MIN : Int := -(2 ^ 63)

/-- The external collaborators of request.c that live outside the two
embedded source files.  parse_hostname and parse_raw_url mutate the URI
in place and report failure; url_decode and path_simplify rewrite the
path in place; str_to_off_t returns the converted value, the unconverted
tail of the input (the err pointer), and whether the conversion set
errno to ERANGE. -/
structure externals where
  parse_hostname : request_uri → Option request_uri
  parse_raw_url : request_uri → Option request_uri
  url_decode : List Char → List Char
  path_simplify : List Char → List Char
  str_to_off_t : List Char → Int × List Char × Bool

/-- bad_request: force keep_alive off and record the response status
(connection_handle_direct is an external side effect with no modelled
state). -/
def bad_request (con : connection) (status : Nat) : connection :=
  { con with keep_alive := false, response_status := status }

/-- A terminated check: either bad_request was called with the given
status, leaving the connection in the given state, or the source ran
into a memory error. -/
inductive halt where
  | bad (status : Nat) (con : connection)
  | mem (e : mem_err)
deriving Repr, DecidableEq

/-- The outcome of request_validate_header: fell through every check,
returned early via bad_request, or hit a memory error. -/
inductive vresult where
  | done (con : connection)
  | rejected (status : Nat) (con : connection)
  | mem (e : mem_err)
deriving Repr, DecidableEq

/-- Check 1, the version switch: HTTP/1.0 keeps keep_alive only when a
connection header has the value keep-alive, HTTP/1.1 drops it when a
connection header has the value close, an unset version is rejected with
505. -/
def check_version (con : connection) : Except halt connection :=
  match con.request.http_version with
  | .HTTP_VERSION_1_0 =>
    if ¬ http_header_is con.request.headers ("connection".data) ("keep-alive".data) then
      .ok { con with keep_alive := false }
    else .ok con
  | .HTTP_VERSION_1_1 =>
    if http_header_is con.request.headers ("connection".data) ("close".data) then
      .ok { con with keep_alive := false }
    else .ok con
  | .HTTP_VERSION_UNSET => .error (.bad 505 (bad_request con 505))

/-- Check 2: an empty raw URI is rejected with 400. -/
def check_uri_nonempty (con : connection) : Except halt connection :=
  if con.request.uri.raw.length == 0 then .error (.bad 400 (bad_request con 400))
  else .ok con

/-- Check 3, the Host header.  The source fuses the two conditions:
`if (NULL != l && NULL != http_header_find_next(l, ...))` rejects with
400, and the else branch—entered both when exactly one host header
exists and when none exists—evaluates `l->data`.  With no host header l
is NULL and the evaluation is a null dereference.  With exactly one, the
header value is appended to the authority and the external hostname
parser runs; its failure rejects with 400. -/
def check_host (ext : externals) (con : connection) : Except halt connection :=
  match http_header_find_first con.request.headers ("host".data) with
  | some (i, hh) =>
    if (http_header_find_next con.request.headers i ("host".data)).isSome then
      .error (.bad 400 (bad_request con 400))
    else
      let con := { con with
        request.uri.authority := con.request.uri.authority ++ hdrValue hh }
      match ext.parse_hostname con.request.uri with
      | none => .error (.bad 400 (bad_request con 400))
      | some u => .ok { con with request.uri := u }
  | none => .error (.mem .null_deref)

/-- Check 4: an empty host with version 1.1 is rejected with 400. -/
def check_host_required (con : connection) : Except halt connection :=
  if con.request.uri.host.length == 0 ∧
     con.request.http_version = .HTTP_VERSION_1_1 then
    .error (.bad 400 (bad_request con 400))
  else .ok con

/-- request_parse_url: truncate query and path, run the external raw URL
parser, forbid the path "*" for any method other than OPTIONS, then
percent-decode and simplify the path. -/
def request_parse_url (ext : externals) (con : connection) : Option connection :=
  let uri0 := { con.request.uri with query := [], path := [] }
  match ext.parse_raw_url uri0 with
  | none => none
  | some uri1 =>
    if uri1.path == ("*".data) ∧ con.request.http_method ≠ .HTTP_METHOD_OPTIONS then
      none
    else
      some { con with
        request.uri := { uri1 with path := ext.path_simplify (ext.url_decode uri1.path) } }

/-- Check 5: a failing request_parse_url rejects with 400. -/
def check_parse_url (ext : externals) (con : connection) : Except halt connection :=
  match request_parse_url ext con with
  | none => .error (.bad 400 (bad_request con 400))
  | some c => .ok c

/-- Check 6, Content-Length: when the header is present its value is
converted by str_to_off_t; a nonempty unconverted tail rejects with 400,
a negative value rejects with 400, a value at the representable-range
boundary with ERANGE signalled rejects with 413, and otherwise the value
is stored; an absent header leaves content_length untouched. -/
def check_content_length (ext : externals) (con : connection) : Except halt connection :=
  match http_header_lookup con.request.headers ("content-length".data) with
  | none => .ok con
  | some hh =>
    let (r, errTail, erange) := ext.str_to_off_t (hdrValue hh)
    if ¬ errTail.isEmpty then .error (.bad 400 (bad_request con 400))
    else if r < 0 then .error (.bad 400 (bad_request con 400))
    else if (r = STR_OFF_T_MIN ∨ r = STR_OFF_T_MAX) ∧ erange then
      .error (.bad 413 (bad_request con 413))
    else .ok { con with request.content_length := r }

/-- The loop body of the Expect check: walk the matching occurrences in
order; a value case-insensitively equal to 100-continue sets the pending
flag, any other value fails the scan (reject 417). -/
def expect_scan : List http_header → Bool → Option Bool
  | [], flag => some flag
  | h :: rest, flag =>
    if headerMatch h ("expect".data) then
      if asciiLowerEq (hdrValue h) ("100-continue".data) then expect_scan rest true
      else none
    else expect_scan rest flag

/-- Check 7, Expect: with no expect header the flag is left untouched;
otherwise every occurrence must be 100-continue (else 417), the pending
flag with version 1.0 rejects with 417, and otherwise the pending flag is
committed to expect_100_cont. -/
def check_expect (con : connection) : Except halt connection :=
  match http_header_find_first con.request.headers ("expect".data) with
  | none => .ok con
  | some _ =>
    match expect_scan con.request.headers.entries false with
    | none => .error (.bad 417 (bad_request con 417))
    | some flag =>
      if flag ∧ con.request.http_version = .HTTP_VERSION_1_0 then
        .error (.bad 417 (bad_request con 417))
      else .ok { con with expect_100_cont := flag }

/-- Check 8, the method switch: GET and HEAD reject a positive
content_length with 400 and otherwise force it to 0; POST rejects the -1
sentinel with 411; every other method passes unchanged. -/
def check_method (con : connection) : Except halt connection :=
  match con.request.http_method with
  | .HTTP_METHOD_GET | .HTTP_METHOD_HEAD =>
    if 0 < con.request.content_length then .error (.bad 400 (bad_request con 400))
    else .ok { con with request.content_length := 0 }
  | .HTTP_METHOD_POST =>
    if con.request.content_length = -1 then .error (.bad 411 (bad_request con 411))
    else .ok con
  | _ => .ok con

/-- The first five checks of request_validate_header, in source order. -/
def prefix5 (ext : externals) (con : connection) : Except halt connection :=
  check_version con >>= check_uri_nonempty >>= check_host ext >>=
    check_host_required >>= check_parse_url ext

/-- Checks 1 through 6. -/
def prefix6 (ext : externals) (con : connection) : Except halt connection :=
  prefix5 ext con >>= check_content_length ext

/-- All eight checks of request_validate_header chained in source
order. -/
def validate_chain (ext : externals) (con : connection) : Except halt connection :=
  prefix6 ext con >>= check_expect >>= check_method

/-- Repackage the chain outcome. -/
def haltOut : Except halt connection → vresult
  | .ok c => .done c
  | .error (.bad s c) => .rejected s c
  | .error (.mem e) => .mem e

/-- request_validate_header: the full linear pipeline of checks. -/
def request_validate_header (ext : externals) (con : connection) : vresult :=
  haltOut (validate_chain ext con)

/-! Request lifecycle (request_init / request_reset). -/

/-- request_init: the observable state established once per connection
slot (the chunkqueue and parser context are out of scope). -/
def request_init : request :=
  { http_method := .HTTP_METHOD_UNSET
    http_method_str := []
    http_version := .HTTP_VERSION_UNSET
    uri := { raw := [], scheme := [], authority := [], path := [], query := [], host := [] }
    headers := http_headers_new
    content_length := -1 }

/-- request_reset: truncate every string, reset method and version,
run http_headers_try_reset on the header collection and keep the
collection it returns, restore the content_length sentinel. -/
def request_reset (req : request) : request :=
  { http_method := .HTTP_METHOD_UNSET
    http_method_str := []
    http_version := .HTTP_VERSION_UNSET
    uri := { raw := [], scheme := [], authority := [], path := [], query := [], host := [] }
    headers := (http_headers_try_reset req.headers).1
    content_length := -1 }

/-! A concrete instantiation of the external collaborators, used to
evaluate the pipeline on closed inputs. -/

/-- Is the character an ASCII decimal digit? -/
def isDigit (c : Char) : Bool := '0' ≤ c && c ≤ '9'

/-- Consume leading decimal digits, returning the accumulated value, the
number of digits consumed and the unconsumed tail. -/
def parseDigits : List Char → Nat → Nat × Nat × List Char
  | [], acc => (acc, 0, [])
  | c :: rest, acc =>
    if isDigit c then
      let (v, k, tl) := parseDigits rest (acc * 10 + (c.toNat - 48))
      (v, k + 1, tl)
    else (acc, 0, c :: rest)

/-- Modelled from the spec: str_to_off_t, the numeric-conversion helper
of the repository (utils.c, not under src/), described as a strtol-style
base-10 conversion that distinguishes "not a number" (err points at the
first unconverted character), a negative result, and range overflow
(value clamped to the representable boundary with ERANGE signalled).
Returns (value, unconverted tail, ERANGE flag). -/
def str_to_off_t (s : List Char) : Int × List Char × Bool :=
  let (neg, t) := match s with
    | '-' :: r => (true, r)
    | '+' :: r => (false, r)
    | _ => (false, s)
  let (n, k, tail) := parseDigits t 0
  if k == 0 then (0, s, false)
  else
    let v : Int := if neg then -(n : Int) else (n : Int)
    if v > STR_OFF_T_MAX then (STR_OFF_T_MAX, tail, true)
    else if v < STR_OFF_T_MIN then (STR_OFF_T_MIN, tail, true)
    else (v, tail, false)

/-- Concrete externals: hostname parsing copies the authority into the
host, raw URL parsing copies the raw string into the path, decoding and
simplification leave the path unchanged, numbers go through the modelled
str_to_off_t. -/
def extOk : externals :=
  { parse_hostname := fun u => some { u with host := u.authority }
    parse_raw_url := fun u => some { u with path := u.raw }
    url_decode := id
    path_simplify := id
    str_to_off_t := str_to_off_t }

/-- A connection with all scalar fields at their request_init values and
the given method, version, raw URI and headers. -/
def mkCon (m : http_method_t) (v : http_version_t) (raw : List Char)
    (hs : http_headers) : connection :=
  { request :=
      { http_method := m
        http_method_str := []
        http_version := v
        uri := { raw := raw, scheme := [], authority := [], path := [],
                 query := [], host := [] }
        headers := hs
        content_length := -1 }
    keep_alive := true
    response_status := 0
    expect_100_cont := false }

/-! Helper lemmas. -/

theorem headerMatch_eq_nameMatches (h : http_header) (key : List Char)
    (wf : h.keylen ≤ h.data.length) : headerMatch h key = nameMatches h key := by
  unfold headerMatch nameMatches hdrName
  by_cases hk : h.keylen = key.length
  · rw [hk] at wf ⊢
    simp [List.length_take, Nat.min_eq_left wf]
  · have h1 : (h.keylen == key.length) = false := by simp [hk]
    have h2 : ((List.take h.keylen h.data).length == key.length) = false := by
      simp [List.length_take, Nat.min_eq_left wf, hk]
    rw [h1, h2, Bool.false_and, Bool.false_and]

theorem findHdrFrom_some {key : List Char} {l : List http_header} {n i : Nat}
    {h : http_header} (hf : findHdrFrom key n l = some (i, h)) :
    h ∈ l ∧ headerMatch h key = true := by
  induction l generalizing n with
  | nil => simp [findHdrFrom] at hf
  | cons a rest ih =>
    unfold findHdrFrom at hf
    by_cases hm : headerMatch a key
    · simp [hm] at hf
      obtain ⟨-, rfl⟩ := hf
      exact ⟨List.mem_cons_self a rest, hm⟩
    · simp [hm] at hf
      obtain ⟨hmem, hmatch⟩ := ih hf
      exact ⟨List.mem_cons_of_mem a hmem, hmatch⟩

theorem findHdrFrom_none {key : List Char} {l : List http_header} {n : Nat} :
    findHdrFrom key n l = none ↔ ∀ h ∈ l, headerMatch h key = false := by
  induction l generalizing n with
  | nil => simp [findHdrFrom]
  | cons a rest ih =>
    unfold findHdrFrom
    by_cases hm : headerMatch a key
    · simp [hm, List.forall_mem_cons]
    · simp [hm, List.forall_mem_cons, ih]

theorem remove_scan_eq (key : List Char) (lp : Option http_header)
    (l : List http_header) :
    http_header_remove_scan key lp l =
      (l.filter (fun h => !headerMatch h key),
       lp.isSome || l.any (fun h => headerMatch h key)) := by
  induction l generalizing lp with
  | nil => simp [http_header_remove_scan]
  | cons a rest ih =>
    unfold http_header_remove_scan
    by_cases hm : headerMatch a key
    · simp [hm, ih, List.filter_cons, List.any_cons]
    · simp [hm, ih, List.filter_cons, List.any_cons]

theorem except_bind_ok {ε α β : Type} (a : Except ε α) (f : α → Except ε β)
    (c : β) : (a >>= f) = .ok c ↔ ∃ b, a = .ok b ∧ f b = .ok c := by
  cases a <;> simp [Bind.bind, Except.bind]

theorem except_bind_err {ε α β : Type} (a : Except ε α) (f : α → Except ε β)
    (b : α) (e : ε) (ha : a = .ok b) (hf : f b = .error e) :
    (a >>= f) = .error e := by
  rw [ha]
  simpa [Bind.bind, Except.bind] using hf

theorem haltOut_done {r : Except halt connection} {c : connection}
    (h : haltOut r = .done c) : r = .ok c := by
  cases r with
  | ok c0 =>
    simp [haltOut] at h
    rw [h]
  | error e => cases e <;> simp [haltOut] at h

theorem haltOut_err_bad (r : Except halt connection) (s : Nat) (c : connection)
    (h : r = .error (.bad s c)) : haltOut r = .rejected s c := by
  rw [h]
  rfl

theorem expect_scan_none {l : List http_header} {flag : Bool} :
    expect_scan l flag = none ↔
      ∃ h ∈ l, headerMatch h ("expect".data) = true ∧
        asciiLowerEq (hdrValue h) ("100-continue".data) = false := by
  induction l generalizing flag with
  | nil => simp [expect_scan]
  | cons a rest ih =>
    unfold expect_scan
    by_cases hm : headerMatch a ("expect".data)
    · by_cases hv : asciiLowerEq (hdrValue a) ("100-continue".data)
      · simp [hm, hv, ih]
      · simp [hm, hv]
    · simp [hm, ih]

theorem expect_scan_all_good {l : List http_header} {flag : Bool}
    (hg : ∀ h ∈ l, headerMatch h ("expect".data) = true →
      asciiLowerEq (hdrValue h) ("100-continue".data) = true) :
    expect_scan l flag =
      some (flag || l.any (fun h => headerMatch h ("expect".data))) := by
  induction l generalizing flag with
  | nil => simp [expect_scan]
  | cons a rest ih =>
    unfold expect_scan
    by_cases hm : headerMatch a ("expect".data)
    · rw [if_pos hm, if_pos (hg a (List.mem_cons_self a rest) hm)]
      rw [ih (fun h hh => hg h (List.mem_cons_of_mem a hh))]
      simp [hm]
    · rw [if_neg hm]
      rw [ih (fun h hh => hg h (List.mem_cons_of_mem a hh))]
      simp [hm]

/-! Preservation facts for the pipeline steps. -/

theorem check_version_ok {con c : connection} (h : check_version con = .ok c) :
    c.request = con.request := by
  unfold check_version at h
  split at h
  · split at h <;> (injection h with h; rw [← h])
  · split at h <;> (injection h with h; rw [← h])
  · cases h

theorem check_uri_nonempty_ok {con c : connection}
    (h : check_uri_nonempty con = .ok c) : c = con := by
  unfold check_uri_nonempty at h
  split at h
  · cases h
  · injection h with h
    rw [h]

theorem check_host_ok {ext : externals} {con c : connection}
    (h : check_host ext con = .ok c) :
    c.request.http_method = con.request.http_method ∧
    c.request.content_length = con.request.content_length ∧
    c.request.headers = con.request.headers := by
  unfold check_host at h
  split at h
  · split at h
    · cases h
    · dsimp only at h
      split at h
      · cases h
      · injection h with h
        rw [← h]
        exact ⟨rfl, rfl, rfl⟩
  · cases h

theorem check_host_required_ok {con c : connection}
    (h : check_host_required con = .ok c) : c = con := by
  unfold check_host_required at h
  split at h
  · cases h
  · injection h with h
    rw [h]

theorem check_parse_url_ok {ext : externals} {con c : connection}
    (h : check_parse_url ext con = .ok c) :
    c.request.http_method = con.request.http_method ∧
    c.request.content_length = con.request.content_length ∧
    c.request.headers = con.request.headers := by
  unfold check_parse_url request_parse_url at h
  split at h
  · cases h
  · rename_i heq
    dsimp only at heq
    split at heq
    · cases heq
    · split at heq
      · cases heq
      · injection heq with heq
        injection h with h
        rw [← h, ← heq]
        exact ⟨rfl, rfl, rfl⟩

theorem check_content_length_ok {ext : externals} {con c : connection}
    (h : check_content_length ext con = .ok c) :
    c.request.http_method = con.request.http_method ∧
    c.request.headers = con.request.headers ∧
    (c.request.content_length = con.request.content_length ∨
      0 ≤ c.request.content_length) := by
  unfold check_content_length at h
  split at h
  · injection h with h
    rw [h]
    exact ⟨rfl, rfl, Or.inl rfl⟩
  · split at h
    rename_i r errTail erange hrt
    by_cases h1 : errTail.isEmpty
    · rw [if_neg (by simp [h1])] at h
      by_cases h2 : r < 0
      · rw [if_pos h2] at h
        cases h
      · rw [if_neg h2] at h
        by_cases h3 : (r = STR_OFF_T_MIN ∨ r = STR_OFF_T_MAX) ∧ erange = true
        · rw [if_pos h3] at h
          cases h
        · rw [if_neg h3] at h
          injection h with h
          rw [← h]
          exact ⟨rfl, rfl, Or.inr (Int.not_lt.mp h2)⟩
    · rw [if_pos (by simp [h1])] at h
      cases h

theorem check_expect_ok {con c : connection} (h : check_expect con = .ok c) :
    c.request = con.request := by
  unfold check_expect at h
  split at h
  · injection h with h
    rw [h]
  · split at h
    · cases h
    · split at h
      · cases h
      · injection h with h
        rw [← h]

theorem prefix5_ok {ext : externals} {con c5 : connection}
    (h : prefix5 ext con = .ok c5) :
    c5.request.http_method = con.request.http_method ∧
    c5.request.content_length = con.request.content_length := by
  unfold prefix5 at h
  obtain ⟨c4, h4, h5⟩ := (except_bind_ok _ _ _).mp h
  obtain ⟨c3, h3, h4⟩ := (except_bind_ok _ _ _).mp h4
  obtain ⟨c2, h2, h3⟩ := (except_bind_ok _ _ _).mp h3
  obtain ⟨c1, h1, h2⟩ := (except_bind_ok _ _ _).mp h2
  have e1 := check_version_ok h1
  have e2 := check_uri_nonempty_ok h2
  have e3 := check_host_ok h3
  have e4 := check_host_required_ok h4
  have e5 := check_parse_url_ok h5
  rw [e5.1, e5.2.1, e4, e3.1, e3.2.1, e2, e1]
  exact ⟨rfl, rfl⟩

theorem list_any_congr {α : Type} (p q : α → Bool) (l : List α)
    (hc : ∀ a ∈ l, p a = q a) : l.any p = l.any q := by
  induction l with
  | nil => rfl
  | cons a t ih =>
    simp only [List.any_cons]
    rw [hc a (List.mem_cons_self a t),
        ih (fun b hb => hc b (List.mem_cons_of_mem a hb))]

theorem list_filter_congr {α : Type} (p q : α → Bool) (l : List α)
    (hc : ∀ a ∈ l, p a = q a) : l.filter p = l.filter q := by
  induction l with
  | nil => rfl
  | cons a t ih =>
    simp only [List.filter_cons]
    rw [hc a (List.mem_cons_self a t),
        ih (fun b hb => hc b (List.mem_cons_of_mem a hb))]

theorem filter_not_filter_not {α : Type} (p : α → Bool) (l : List α) :
    (l.filter fun a => !p a).filter (fun a => !p a) = l.filter fun a => !p a := by
  induction l with
  | nil => rfl
  | cons a t ih =>
    by_cases hp : p a <;> simp [List.filter_cons, hp, ih]

theorem any_filter_not {α : Type} (p : α → Bool) (l : List α) :
    (l.filter fun a => !p a).any p = false := by
  induction l with
  | nil => rfl
  | cons a t ih =>
    by_cases hp : p a <;> simp [List.filter_cons, hp, ih]

/-! Concrete fixtures and result accessors. -/

/-- The status of a rejected outcome, if any. -/
def rejStatus : vresult → Option Nat
  | .rejected s _ => some s
  | _ => none

/-- The final content_length of an accepted outcome, if any. -/
def clOf : vresult → Option Int
  | .done c => some c.request.content_length
  | _ => none

/-- The final expect_100_cont flag of an accepted outcome, if any. -/
def expectOf : vresult → Option Bool
  | .done c => some c.expect_100_cont
  | _ => none

/-- A collection holding exactly one Host header. -/
def hsHost : http_headers :=
  http_header_insert http_headers_new ("Host".data) ("example.com".data)

/-- A collection holding two Host headers with identical values. -/
def hsHostDup : http_headers :=
  http_header_insert hsHost ("Host".data) ("example.com".data)

/-- A collection holding exactly one entry named Content-Type. -/
def hsCT : http_headers :=
  http_header_insert http_headers_new ("Content-Type".data) ("text/html".data)

/-- A collection holding exactly one entry named host. -/
def hsHostLower : http_headers :=
  http_header_insert http_headers_new ("host".data) ("h".data)

/-- The remove-all test collection: X:1, Y:2, X:3, X:4. -/
def hsXY : http_headers :=
  http_header_insert
    (http_header_insert
      (http_header_insert
        (http_header_insert http_headers_new ("X".data) ("1".data))
        ("Y".data) ("2".data))
      ("X".data) ("3".data))
    ("X".data) ("4".data)

/-- A Host collection extended with one extra header of the given name
and value. -/
def hsHostWith (k v : List Char) : http_headers :=
  http_header_insert hsHost k v

/-- The final authority of an accepted outcome, if any. -/
def authOf : vresult → Option (List Char)
  | .done c => some c.request.uri.authority
  | _ => none

/-- The final host of an accepted outcome, if any. -/
def hostOf : vresult → Option (List Char)
  | .done c => some c.request.uri.host
  | _ => none

/-- A request with every field at its reset target but junk contents. -/
def reqJunk : request :=
  { http_method := .HTTP_METHOD_POST
    http_method_str := "POST".data
    http_version := .HTTP_VERSION_1_1
    uri := { raw := "/x".data, scheme := "http".data, authority := "a".data,
             path := "/x".data, query := "q".data, host := "a".data }
    headers := ⟨1, [_http_header_new ("X".data) ("a".data)]⟩
    content_length := 5 }

/-! Claim theorems. -/

/-- C1: duplicate Host headers are rejected with 400 and a single Host
header becomes the authority and parsed host, but a request with no Host
header at all does not proceed with empty authority as claimed: the
source evaluates l->data on the NULL result of find_first (the else
branch of the fused conditional at request.c lines 115-126 also covers
the no-Host case), a null dereference. -/
theorem c1_host_cardinality :
    rejStatus (request_validate_header extOk
      (mkCon .HTTP_METHOD_GET .HTTP_VERSION_1_1 ("/".data) hsHostDup)) = some 400 ∧
    authOf (request_validate_header extOk
      (mkCon .HTTP_METHOD_GET .HTTP_VERSION_1_1 ("/".data) hsHost)) =
        some ("example.com".data) ∧
    hostOf (request_validate_header extOk
      (mkCon .HTTP_METHOD_GET .HTTP_VERSION_1_1 ("/".data) hsHost)) =
        some ("example.com".data) ∧
    request_validate_header extOk
      (mkCon .HTTP_METHOD_GET .HTTP_VERSION_1_0 ("/".data) http_headers_new) =
        .mem .null_deref := by
  refine ⟨?_, ?_, ?_, ?_⟩ <;> decide

/-- C2: append on an absent name inserts, but on a present name the
source casts the found GList node itself (request line
`h = (http_header*) l;`, http_headers.c line 116) instead of the entry
held in the node, so the stored entry is never combined to "a, b"; the
write through the reinterpreted pointer is a memory error. -/
theorem c2_append_cast_bug :
    http_header_append http_headers_new ("X".data) ("a".data) =
      .ok (http_header_insert http_headers_new ("X".data) ("a".data)) ∧
    http_header_append (http_header_insert http_headers_new ("X".data) ("a".data))
      ("X".data) ("b".data) = .error .cast_node_as_header :=
  ⟨rfl, rfl⟩

/-- C3: overwrite on an absent name inserts, but on a present name the
source casts the found GList node itself (http_headers.c line 131)
instead of the entry held in the node, so the stored bytes of the last
matching entry are never replaced; the write through the reinterpreted
pointer is a memory error. -/
theorem c3_overwrite_cast_bug :
    http_header_overwrite http_headers_new ("X".data) ("a".data) =
      .ok (http_header_insert http_headers_new ("X".data) ("a".data)) ∧
    http_header_overwrite (http_header_insert http_headers_new ("X".data) ("a".data))
      ("X".data) ("b".data) = .error .cast_node_as_header :=
  ⟨rfl, rfl⟩

/-- C8: try_reset decrements the reference count; the sole owner
(refcount 1) gets the same object back with its entries cleared and the
count reset to 1, while any other caller gets a fresh empty collection
and the original keeps its entries with the decremented count. -/
theorem c8_try_reset (hs : http_headers) :
    (hs.refcount = 1 →
      http_headers_try_reset hs = (⟨1, []⟩, ⟨1, []⟩, true)) ∧
    (2 ≤ hs.refcount →
      http_headers_try_reset hs =
        (http_headers_new, ⟨hs.refcount - 1, hs.entries⟩, false)) := by
  constructor
  · intro h1
    unfold http_headers_try_reset
    rw [h1]
    rfl
  · intro h2
    have hne : (hs.refcount - 1 == 0) = false := by
      simp only [beq_eq_false_iff_ne, ne_eq]
      omega
    unfold http_headers_try_reset
    rw [hne]
    rfl

/-- Witness for C8 at refcount 1 and refcount 2 on a one-entry
collection. -/
theorem c8_try_reset_witness :
    http_headers_try_reset ⟨1, [_http_header_new ("X".data) ("a".data)]⟩ =
      (⟨1, []⟩, ⟨1, []⟩, true) ∧
    http_headers_try_reset ⟨2, [_http_header_new ("X".data) ("a".data)]⟩ =
      (http_headers_new, ⟨1, [_http_header_new ("X".data) ("a".data)]⟩, false) :=
  ⟨(c8_try_reset ⟨1, [_http_header_new ("X".data) ("a".data)]⟩).1 rfl,
   (c8_try_reset ⟨2, [_http_header_new ("X".data) ("a".data)]⟩).2 (by decide)⟩

/-- C10: when the caller solely owns the header collection,
request_reset restores exactly the observable state request_init
establishes: UNSET method and version, empty method string and URI
components, the -1 content_length sentinel, and an empty header
collection with refcount 1. -/
theorem c10_reset_eq_init (req : request) (h1 : req.headers.refcount = 1) :
    request_reset req = request_init ∧
    request_init.http_method = .HTTP_METHOD_UNSET ∧
    request_init.http_version = .HTTP_VERSION_UNSET ∧
    request_init.content_length = -1 ∧
    request_init.headers = ⟨1, []⟩ := by
  refine ⟨?_, rfl, rfl, rfl, rfl⟩
  unfold request_reset request_init http_headers_try_reset
  rw [h1]
  rfl

/-- Witness for C10 on a request full of junk whose collection has
refcount 1. -/
theorem c10_reset_eq_init_witness : request_reset reqJunk = request_init :=
  (c10_reset_eq_init reqJunk rfl).1

/-- C7: remove deletes every entry whose name matches the searched name
case-insensitively at full length, reports whether any deletion
occurred, keeps all non-matching entries in their original relative
order, and a second remove of the same name returns false and changes
nothing. -/
theorem c7_remove_all (hs : http_headers) (key : List Char)
    (wf : ∀ h ∈ hs.entries, h.keylen ≤ h.data.length) :
    (http_header_remove hs key).1.entries =
      hs.entries.filter (fun h => !(nameMatches h key)) ∧
    (http_header_remove hs key).2 =
      hs.entries.any (fun h => nameMatches h key) ∧
    http_header_remove (http_header_remove hs key).1 key =
      ((http_header_remove hs key).1, false) := by
  have hfe : hs.entries.filter (fun h => !headerMatch h key) =
      hs.entries.filter (fun h => !nameMatches h key) := by
    apply list_filter_congr
    intro h hm
    rw [headerMatch_eq_nameMatches h key (wf h hm)]
  have hae : hs.entries.any (fun h => headerMatch h key) =
      hs.entries.any (fun h => nameMatches h key) := by
    apply list_any_congr
    intro h hm
    rw [headerMatch_eq_nameMatches h key (wf h hm)]
  have hrm : http_header_remove hs key =
      ({ hs with entries := hs.entries.filter fun h => !headerMatch h key },
       hs.entries.any fun h => headerMatch h key) := by
    unfold http_header_remove
    rw [remove_scan_eq]
    rfl
  refine ⟨?_, ?_, ?_⟩
  · rw [hrm, ← hfe]
  · rw [hrm, ← hae]
  · rw [hrm]
    unfold http_header_remove
    rw [remove_scan_eq]
    dsimp only
    rw [filter_not_filter_not, any_filter_not]
    rfl

/-- Witness for C7 on the collection X:1, Y:2, X:3, X:4 with the name
X: exactly the Y entry survives, removal is reported, and a second
remove reports nothing and changes nothing. -/
theorem c7_remove_all_witness :
    (http_header_remove hsXY ("X".data)).1.entries =
      hsXY.entries.filter (fun h => !(nameMatches h ("X".data))) ∧
    hsXY.entries.filter (fun h => !(nameMatches h ("X".data))) =
      [_http_header_new ("Y".data) ("2".data)] ∧
    (http_header_remove hsXY ("X".data)).2 = true ∧
    http_header_remove (http_header_remove hsXY ("X".data)).1 ("X".data) =
      ((http_header_remove hsXY ("X".data)).1, false) := by
  have hmain := c7_remove_all hsXY ("X".data) (by decide)
  exact ⟨hmain.1, by decide, by rw [hmain.2.1]; decide, hmain.2.2⟩

/-- C9: find_first, find_next and find_last report a match exactly when
the searched name has the same byte length as the entry name and the
two are equal under ASCII case-insensitive comparison; Content-Type is
found by content-type and CONTENT-TYPE, and host is matched by neither
ho nor hostx. -/
theorem c9_find_match (hs : http_headers) (key : List Char)
    (wf : ∀ h ∈ hs.entries, h.keylen ≤ h.data.length) :
    (∀ i h, http_header_find_first hs key = some (i, h) →
      h ∈ hs.entries ∧ nameMatches h key = true) ∧
    (http_header_find_first hs key = none ↔
      ∀ h ∈ hs.entries, nameMatches h key = false) ∧
    (∀ j i h, http_header_find_next hs j key = some (i, h) →
      h ∈ hs.entries ∧ nameMatches h key = true) ∧
    (∀ j, http_header_find_next hs j key = none ↔
      ∀ h ∈ hs.entries.drop (j + 1), nameMatches h key = false) ∧
    (∀ i h, http_header_find_last hs key = some (i, h) →
      h ∈ hs.entries ∧ nameMatches h key = true) ∧
    (http_header_find_last hs key = none ↔
      ∀ h ∈ hs.entries, nameMatches h key = false) ∧
    (http_header_find_first hsCT ("content-type".data)).isSome = true ∧
    (http_header_find_first hsCT ("CONTENT-TYPE".data)).isSome = true ∧
    http_header_find_first hsHostLower ("ho".data) = none ∧
    http_header_find_first hsHostLower ("hostx".data) = none := by
  refine ⟨?_, ?_, ?_, ?_, ?_, ?_, by decide, by decide, by decide, by decide⟩
  · intro i h hf
    obtain ⟨hm, hmt⟩ := findHdrFrom_some hf
    exact ⟨hm, by rw [← headerMatch_eq_nameMatches h key (wf h hm)]; exact hmt⟩
  · unfold http_header_find_first
    rw [findHdrFrom_none]
    constructor <;> intro hall h hm
    · rw [← headerMatch_eq_nameMatches h key (wf h hm)]
      exact hall h hm
    · rw [headerMatch_eq_nameMatches h key (wf h hm)]
      exact hall h hm
  · intro j i h hf
    obtain ⟨hm, hmt⟩ := findHdrFrom_some hf
    have hm2 : h ∈ hs.entries := List.mem_of_mem_drop hm
    exact ⟨hm2, by rw [← headerMatch_eq_nameMatches h key (wf h hm2)]; exact hmt⟩
  · intro j
    unfold http_header_find_next
    rw [findHdrFrom_none]
    constructor <;> intro hall h hm
    · rw [← headerMatch_eq_nameMatches h key (wf h (List.mem_of_mem_drop hm))]
      exact hall h hm
    · rw [headerMatch_eq_nameMatches h key (wf h (List.mem_of_mem_drop hm))]
      exact hall h hm
  · intro i h hf
    unfold http_header_find_last at hf
    cases hf0 : findHdrFrom key 0 hs.entries.reverse with
    | none => rw [hf0] at hf; cases hf
    | some p =>
      rw [hf0] at hf
      obtain ⟨j, h0⟩ := p
      dsimp only at hf
      injection hf with hf
      injection hf with hf1 hf2
      obtain ⟨hm, hmt⟩ := findHdrFrom_some hf0
      rw [hf2] at hm hmt
      have hm2 : h ∈ hs.entries := List.mem_reverse.mp hm
      exact ⟨hm2, by rw [← headerMatch_eq_nameMatches h key (wf h hm2)]; exact hmt⟩
  · unfold http_header_find_last
    constructor
    · intro hf h hm
      cases hf0 : findHdrFrom key 0 hs.entries.reverse with
      | none =>
        have hall := findHdrFrom_none.mp hf0
        rw [← headerMatch_eq_nameMatches h key (wf h hm)]
        exact hall h (List.mem_reverse.mpr hm)
      | some p =>
        rw [hf0] at hf
        obtain ⟨j, h0⟩ := p
        cases hf
    · intro hall
      have hnone : findHdrFrom key 0 hs.entries.reverse = none := by
        rw [findHdrFrom_none]
        intro h hm
        have hm2 : h ∈ hs.entries := List.mem_reverse.mp hm
        rw [headerMatch_eq_nameMatches h key (wf h hm2)]
        exact hall h hm2
      rw [hnone]

/-- Witness for C9 on the Content-Type and host fixtures. -/
theorem c9_find_match_witness :
    (http_header_find_first hsCT ("content-type".data)).isSome = true ∧
    http_header_find_first hsHostLower ("ho".data) = none :=
  ⟨(c9_find_match hsCT ("content-type".data) (by decide)).2.2.2.2.2.2.1,
   (c9_find_match hsHostLower ("ho".data) (by decide)).2.2.2.2.2.2.2.2.1⟩

/-- A GET request with one Host header and a Content-Length header of
the given value. -/
def conCL (v : List Char) : connection :=
  mkCon .HTTP_METHOD_GET .HTTP_VERSION_1_1 ("/".data)
    (hsHostWith ("Content-Length".data) v)

/-- C4: with a Content-Length header present the value goes through the
base-10 conversion and a nonempty unconverted remainder rejects with
400, a negative value rejects with 400, a value at the
representable-range boundary with overflow signalled rejects with 413,
and otherwise the parsed non-negative value is stored; an absent header
leaves the -1 sentinel untouched at this stage.  Concretely, with the
spec-modelled conversion: value abc gives 400, value -1 gives 400, a
23-digit value gives 413, and value 0 on a GET is accepted with
content_length 0. -/
theorem c4_content_length (ext : externals) (con : connection) :
    (http_header_lookup con.request.headers ("content-length".data) = none →
      check_content_length ext con = .ok con) ∧
    (∀ hh r errTail erange,
      http_header_lookup con.request.headers ("content-length".data) = some hh →
      ext.str_to_off_t (hdrValue hh) = (r, errTail, erange) →
      (errTail ≠ [] →
        check_content_length ext con = .error (.bad 400 (bad_request con 400))) ∧
      (errTail = [] → r < 0 →
        check_content_length ext con = .error (.bad 400 (bad_request con 400))) ∧
      (errTail = [] → 0 ≤ r → (r = STR_OFF_T_MIN ∨ r = STR_OFF_T_MAX) →
        erange = true →
        check_content_length ext con = .error (.bad 413 (bad_request con 413))) ∧
      (errTail = [] → 0 ≤ r →
        ¬((r = STR_OFF_T_MIN ∨ r = STR_OFF_T_MAX) ∧ erange = true) →
        check_content_length ext con =
          .ok { con with request.content_length := r })) ∧
    (∀ con5 s c, prefix5 ext con = .ok con5 →
      check_content_length ext con5 = .error (.bad s c) →
      request_validate_header ext con = .rejected s c) ∧
    rejStatus (request_validate_header extOk (conCL ("abc".data))) = some 400 ∧
    rejStatus (request_validate_header extOk (conCL ("-1".data))) = some 400 ∧
    rejStatus (request_validate_header extOk
      (conCL ("99999999999999999999999".data))) = some 413 ∧
    clOf (request_validate_header extOk (conCL ("0".data))) = some 0 := by
  refine ⟨?_, ?_, ?_, by decide, by decide, by decide, by decide⟩
  · intro hlk
    unfold check_content_length
    rw [hlk]
  · intro hh r errTail erange hlk hrt
    have hred : check_content_length ext con =
        (if ¬ errTail.isEmpty then
          Except.error (.bad 400 (bad_request con 400))
        else if r < 0 then Except.error (.bad 400 (bad_request con 400))
        else if (r = STR_OFF_T_MIN ∨ r = STR_OFF_T_MAX) ∧ erange = true then
          Except.error (.bad 413 (bad_request con 413))
        else Except.ok { con with request.content_length := r }) := by
      simp only [check_content_length, hlk, hrt]
    refine ⟨?_, ?_, ?_, ?_⟩
    · intro hne
      rw [hred, if_pos (by simp [List.isEmpty_iff, hne])]
    · intro hET hr
      rw [hred, if_neg (by simp [List.isEmpty_iff, hET]), if_pos hr]
    · intro hET hr0 hb he
      rw [hred, if_neg (by simp [List.isEmpty_iff, hET]),
        if_neg (not_lt.mpr hr0), if_pos ⟨hb, he⟩]
    · intro hET hr0 hnb
      rw [hred, if_neg (by simp [List.isEmpty_iff, hET]),
        if_neg (not_lt.mpr hr0), if_neg hnb]
  · intro con5 s c h5 hcl
    unfold request_validate_header
    apply haltOut_err_bad
    unfold validate_chain prefix6
    rw [h5]
    simp [Bind.bind, Except.bind, hcl]

/-- Witness for C4 at the concrete value abc under the concrete
externals. -/
theorem c4_content_length_witness :
    check_content_length extOk (conCL ("abc".data)) =
      .error (.bad 400 (bad_request (conCL ("abc".data)) 400)) :=
  ((c4_content_length extOk (conCL ("abc".data))).2.1
    (_http_header_new ("Content-Length".data) ("abc".data))
    0 ("abc".data) false (by decide) (by decide)).1 (by decide)

/-- A request with one Host header and an Expect header of the given
value, at the given version. -/
def conExp (ver : http_version_t) (v : List Char) : connection :=
  mkCon .HTTP_METHOD_GET ver ("/".data) (hsHostWith ("Expect".data) v)

/-- C6: with at least one Expect header, any occurrence whose value is
not case-insensitively 100-continue rejects with 417; if every
occurrence is 100-continue but the version is HTTP/1.0 the request is
rejected with 417; otherwise the flag is committed as true.  A request
with no Expect header leaves the flag untouched.  Concretely:
100-continue on 1.1 is accepted with the flag set, on 1.0 it is 417,
and gzip is 417 on either version. -/
theorem c6_expect (ext : externals) (con : connection) :
    (http_header_find_first con.request.headers ("expect".data) = none →
      check_expect con = .ok con) ∧
    ((∃ h ∈ con.request.headers.entries, headerMatch h ("expect".data) = true) →
      ((∃ h ∈ con.request.headers.entries, headerMatch h ("expect".data) = true ∧
          asciiLowerEq (hdrValue h) ("100-continue".data) = false) →
        check_expect con = .error (.bad 417 (bad_request con 417))) ∧
      ((∀ h ∈ con.request.headers.entries, headerMatch h ("expect".data) = true →
          asciiLowerEq (hdrValue h) ("100-continue".data) = true) →
        (con.request.http_version = .HTTP_VERSION_1_0 →
          check_expect con = .error (.bad 417 (bad_request con 417))) ∧
        (con.request.http_version ≠ .HTTP_VERSION_1_0 →
          check_expect con = .ok { con with expect_100_cont := true }))) ∧
    (∀ con6 s c, prefix6 ext con = .ok con6 →
      check_expect con6 = .error (.bad s c) →
      request_validate_header ext con = .rejected s c) ∧
    expectOf (request_validate_header extOk
      (conExp .HTTP_VERSION_1_1 ("100-continue".data))) = some true ∧
    rejStatus (request_validate_header extOk
      (conExp .HTTP_VERSION_1_0 ("100-continue".data))) = some 417 ∧
    rejStatus (request_validate_header extOk
      (conExp .HTTP_VERSION_1_1 ("gzip".data))) = some 417 ∧
    rejStatus (request_validate_header extOk
      (conExp .HTTP_VERSION_1_0 ("gzip".data))) = some 417 := by
  refine ⟨?_, ?_, ?_, by decide, by decide, by decide, by decide⟩
  · intro hf
    unfold check_expect
    rw [hf]
  · intro hex
    obtain ⟨h0, hm0, hmt0⟩ := hex
    have hfs : ∃ p, http_header_find_first con.request.headers ("expect".data) =
        some p := by
      cases hf : http_header_find_first con.request.headers ("expect".data) with
      | none =>
        exfalso
        have hall := findHdrFrom_none.mp hf
        rw [hall h0 hm0] at hmt0
        cases hmt0
      | some p => exact ⟨p, rfl⟩
    obtain ⟨p, hp⟩ := hfs
    constructor
    · intro hbadex
      obtain ⟨hb, hbm, hbmt, hbv⟩ := hbadex
      have hscan : expect_scan con.request.headers.entries false = none :=
        expect_scan_none.mpr ⟨hb, hbm, hbmt, hbv⟩
      simp only [check_expect, hp, hscan]
    · intro hgood
      have hany : con.request.headers.entries.any
          (fun h => headerMatch h ("expect".data)) = true :=
        List.any_eq_true.mpr ⟨h0, hm0, hmt0⟩
      have hscan : expect_scan con.request.headers.entries false = some true := by
        rw [expect_scan_all_good hgood, Bool.false_or, hany]
      constructor
      · intro hv
        simp only [check_expect, hp, hscan]
        rw [if_pos ⟨by trivial, hv⟩]
      · intro hv
        simp only [check_expect, hp, hscan]
        rw [if_neg (by simp [hv])]
  · intro con6 s c h6 hexp
    unfold request_validate_header
    apply haltOut_err_bad
    unfold validate_chain
    rw [h6]
    simp [Bind.bind, Except.bind, hexp]

/-- Witness for C6: Expect 100-continue on HTTP/1.1 commits the flag. -/
theorem c6_expect_witness :
    check_expect (conExp .HTTP_VERSION_1_1 ("100-continue".data)) =
      .ok { conExp .HTTP_VERSION_1_1 ("100-continue".data) with
              expect_100_cont := true } :=
  (((c6_expect extOk (conExp .HTTP_VERSION_1_1 ("100-continue".data))).2.1
      (by decide)).2 (by decide)).2 (by decide)

/-- A POST request with one Host header and content_length already
parsed to 0. -/
def conPost0 : connection :=
  { mkCon .HTTP_METHOD_POST .HTTP_VERSION_1_1 ("/".data) hsHost with
      request.content_length := 0 }

/-- A GET request with one Host header and no Content-Length header. -/
def conGetW : connection :=
  mkCon .HTTP_METHOD_GET .HTTP_VERSION_1_1 ("/".data) hsHost

/-- The accepted connection produced by validating conGetW. -/
def resGetW : connection :=
  match request_validate_header extOk conGetW with
  | .done c => c
  | _ => conGetW

/-- C5: GET and HEAD reject a positive content_length with 400 and
otherwise force it to 0; POST rejects the absent (-1) sentinel with
411 and accepts any other stored value; every other method passes the
stored value through; and a request entering validation with the -1
sentinel that is accepted with method GET, HEAD or POST ends with a
non-negative content_length, never -1. -/
theorem c5_method_policy (ext : externals) (con : connection) :
    ((con.request.http_method = .HTTP_METHOD_GET ∨
      con.request.http_method = .HTTP_METHOD_HEAD) →
      (0 < con.request.content_length →
        check_method con = .error (.bad 400 (bad_request con 400))) ∧
      (¬ 0 < con.request.content_length →
        check_method con = .ok { con with request.content_length := 0 })) ∧
    (con.request.http_method = .HTTP_METHOD_POST →
      (con.request.content_length = -1 →
        check_method con = .error (.bad 411 (bad_request con 411))) ∧
      (con.request.content_length ≠ -1 → check_method con = .ok con)) ∧
    (con.request.http_method ≠ .HTTP_METHOD_GET →
      con.request.http_method ≠ .HTTP_METHOD_HEAD →
      con.request.http_method ≠ .HTTP_METHOD_POST →
      check_method con = .ok con) ∧
    (con.request.content_length = -1 →
      ∀ c, request_validate_header ext con = .done c →
        (con.request.http_method = .HTTP_METHOD_GET ∨
         con.request.http_method = .HTTP_METHOD_HEAD ∨
         con.request.http_method = .HTTP_METHOD_POST) →
        0 ≤ c.request.content_length) := by
  refine ⟨?_, ?_, ?_, ?_⟩
  · intro hm
    have hrw : check_method con =
        (if 0 < con.request.content_length then
          Except.error (.bad 400 (bad_request con 400))
        else Except.ok { con with request.content_length := 0 }) := by
      rcases hm with h | h <;> (unfold check_method; rw [h])
    constructor
    · intro h0
      rw [hrw, if_pos h0]
    · intro h0
      rw [hrw, if_neg h0]
  · intro hm
    have hrw : check_method con =
        (if con.request.content_length = -1 then
          Except.error (.bad 411 (bad_request con 411))
        else Except.ok con) := by
      unfold check_method
      rw [hm]
    constructor
    · intro h0
      rw [hrw, if_pos h0]
    · intro h0
      rw [hrw, if_neg h0]
  · intro hg hh hp
    cases hmm : con.request.http_method <;> simp_all [check_method]
  · intro hcl c hdone hm
    unfold request_validate_header at hdone
    have hchain := haltOut_done hdone
    unfold validate_chain at hchain
    obtain ⟨c7, h7, h8⟩ := (except_bind_ok _ _ _).mp hchain
    obtain ⟨c6, h6, h7b⟩ := (except_bind_ok _ _ _).mp h7
    unfold prefix6 at h6
    obtain ⟨c5, h5, h6b⟩ := (except_bind_ok _ _ _).mp h6
    have p5 := prefix5_ok h5
    have p6 := check_content_length_ok h6b
    have p7 := check_expect_ok h7b
    have hm7 : c7.request.http_method = con.request.http_method := by
      rw [p7, p6.1, p5.1]
    have hcl7 : c7.request.content_length = -1 ∨ 0 ≤ c7.request.content_length := by
      rcases p6.2.2 with hsame | hge
      · left
        rw [p7, hsame, p5.2, hcl]
      · right
        rw [p7]
        exact hge
    unfold check_method at h8
    rcases hm with hmg | hmh | hmp
    · rw [hm7.trans hmg] at h8
      dsimp only at h8
      split at h8
      · cases h8
      · injection h8 with h8
        rw [← h8]
    · rw [hm7.trans hmh] at h8
      dsimp only at h8
      split at h8
      · cases h8
      · injection h8 with h8
        rw [← h8]
    · rw [hm7.trans hmp] at h8
      dsimp only at h8
      split at h8
      · cases h8
      · rename_i hne
        injection h8 with h8
        rw [← h8]
        rcases hcl7 with he | hge
        · exact absurd he hne
        · exact hge

/-- Witness for C5: a POST with stored length 0 passes the method
check, and the full pipeline on a GET without Content-Length ends with
a non-negative content_length. -/
theorem c5_method_policy_witness :
    check_method conPost0 = .ok conPost0 ∧
    0 ≤ resGetW.request.content_length :=
  ⟨((c5_method_policy extOk conPost0).2.1 rfl).2 (by decide),
   (c5_method_policy extOk conGetW).2.2.2 rfl resGetW (by rfl) (Or.inl rfl)⟩

end LightySpec
